import Mathlib

/-!
# Verification of the audio transcoding and streaming pipeline of
# `demo_live.py` (sovereign-voice-ai-agents)

This file is a shallow embedding of the pipeline code in `demo_live.py`:

* the `audioop` codec primitives the script calls (`tomono`, `ratecv`,
  `lin2ulaw`, `ulaw2lin`), translated from CPython's `Modules/audioop.c`
  at byte level (fragments are lists of byte values, samples are
  little-endian two's-complement integers of the given width);
* the WAV-to-mu-law transcoding performed inside `local_asr_transcribe`;
* the ASR transport adapter `local_asr_transcribe` itself, with the
  network/file environment made explicit (an `AsrEnv` record supplies the
  outcome of each suspension point, and exceptions become `Except` errors);
* the TTS streaming adapter `neutts_synthesize`;
* the conversation-driver loop of `run_demo` as a trace-producing
  function over per-step environments.

Theorems about the claims of the specification follow the definitions.
-/

namespace SovereignVoice

/-! ## Bytes and linear samples

`audioop` fragments are byte strings; a linear fragment of width `w`
holds native-endian two's-complement samples of `w` bytes each.  We model
bytes as `Nat` values (reduced mod 256, as Python's `bytes` type
guarantees) and samples as `Int`. -/

/-- Two's-complement reinterpretation of an unsigned `bits`-bit value. -/
def toSigned (bits : Nat) (u : Nat) : Int :=
  if u < 2 ^ (bits - 1) then (u : Int) else (u : Int) - 2 ^ bits

/-- Decode a width-1 linear fragment into its samples (trailing partial
frame ignored; `audioop` rejects such fragments before decoding). -/
def decodeSigned1 : List Nat → List Int
  | [] => []
  | b :: rest => toSigned 8 (b % 256) :: decodeSigned1 rest

/-- Decode a width-2 (16-bit little-endian) linear fragment. -/
def decodeSigned2 : List Nat → List Int
  | b0 :: b1 :: rest => toSigned 16 (b0 % 256 + 256 * (b1 % 256)) :: decodeSigned2 rest
  | _ => []

/-- Decode a width-3 (24-bit little-endian) linear fragment. -/
def decodeSigned3 : List Nat → List Int
  | b0 :: b1 :: b2 :: rest =>
      toSigned 24 (b0 % 256 + 256 * (b1 % 256) + 65536 * (b2 % 256)) :: decodeSigned3 rest
  | _ => []

/-- Decode a width-4 (32-bit little-endian) linear fragment. -/
def decodeSigned4 : List Nat → List Int
  | b0 :: b1 :: b2 :: b3 :: rest =>
      toSigned 32 (b0 % 256 + 256 * (b1 % 256) + 65536 * (b2 % 256) + 16777216 * (b3 % 256)) ::
        decodeSigned4 rest
  | _ => []

/-- Decode a linear fragment of the given sample width (1 to 4). -/
def decodeSigned (width : Nat) (bs : List Nat) : List Int :=
  match width with
  | 1 => decodeSigned1 bs
  | 2 => decodeSigned2 bs
  | 3 => decodeSigned3 bs
  | 4 => decodeSigned4 bs
  | _ => []

/-- Encode one sample as its low `w` bytes, little endian
(two's complement, as C stores native ints). -/
def encByte (s : Int) (i : Nat) : Nat :=
  ((s.emod (2 ^ (8 * (i + 1)))).toNat) / 2 ^ (8 * i)

/-- Encode a width-1 sample list back into bytes. -/
def encodeSigned1 : List Int → List Nat
  | [] => []
  | s :: rest => encByte s 0 :: encodeSigned1 rest

/-- Encode a width-2 sample list back into bytes (little endian). -/
def encodeSigned2 : List Int → List Nat
  | [] => []
  | s :: rest => encByte s 0 :: encByte s 1 :: encodeSigned2 rest

/-- Encode a width-3 sample list back into bytes (little endian). -/
def encodeSigned3 : List Int → List Nat
  | [] => []
  | s :: rest => encByte s 0 :: encByte s 1 :: encByte s 2 :: encodeSigned3 rest

/-- Encode a width-4 sample list back into bytes (little endian). -/
def encodeSigned4 : List Int → List Nat
  | [] => []
  | s :: rest => encByte s 0 :: encByte s 1 :: encByte s 2 :: encByte s 3 :: encodeSigned4 rest

/-- Encode samples at the given width. -/
def encodeSigned (width : Nat) (ss : List Int) : List Nat :=
  match width with
  | 1 => encodeSigned1 ss
  | 2 => encodeSigned2 ss
  | 3 => encodeSigned3 ss
  | 4 => encodeSigned4 ss
  | _ => []

/-! ## `audioop` error conditions

`audioop.error` is raised for a bad sample width, a fragment that is not
a whole number of frames, or a non-positive rate.  Inside
`local_asr_transcribe` any such exception is caught by the surrounding
`try`/`except`. -/

inductive AudioopError where
  | badWidth
  | notWholeFrames
  | badRate
deriving DecidableEq, Repr

/-- `audioop_check_size`: the supported sample widths (1 to 4). -/
def widthOk (width : Nat) : Bool :=
  1 ≤ width && width ≤ 4

/-- `maxvals[width]` from `audioop.c`. -/
def maxval (width : Nat) : Int := 2 ^ (8 * width - 1) - 1

/-- `minvals[width]` from `audioop.c`. -/
def minval (width : Nat) : Int := -(2 ^ (8 * width - 1))

/-! ## `audioop.tomono(fragment, width, 0.5, 0.5)`

The demo always calls `tomono` with both factors `0.5`; double-precision
arithmetic on `0.5*l + 0.5*r` is exact, so `fbound(0.5*l + 0.5*r, minv,
maxv)` (clip, then round toward minus infinity) has the exact integer
rendering below using `Int.fdiv`. -/

/-- One mixed sample: `fbound(0.5*l + 0.5*r, minv, maxv)` of `audioop.c`. -/
def mixSample (minv maxv l r : Int) : Int :=
  let q := (l + r).fdiv 2
  if maxv < q then maxv else if q ≤ minv then minv else q

/-- Mix consecutive stereo sample pairs with equal weights. -/
def mixPairs (minv maxv : Int) : List Int → List Int
  | l :: r :: rest => mixSample minv maxv l r :: mixPairs minv maxv rest
  | _ => []

/-- `audioop.tomono(fragment, width, 0.5, 0.5)`: checks the width, that
the fragment is a whole number of samples, and that the sample count is
even; then averages each L/R pair. -/
def tomono (width : Nat) (frames : List Nat) : Except AudioopError (List Nat) :=
  if ¬ widthOk width then .error .badWidth
  else if frames.length % width ≠ 0 then .error .notWholeFrames
  else if (frames.length / width) % 2 ≠ 0 then .error .notWholeFrames
  else .ok (encodeSigned width (mixPairs (minval width) (maxval width) (decodeSigned width frames)))

/-! ## `audioop.ratecv`

`demo_live.py` line 137 calls
`audioop.ratecv(frames, width, 1, rate, 8000, None)` — always mono
(`nchannels = 1`), always with the default filter weights
`weightA = 1, weightB = 0`, always with a fresh (`None`) state, and it
discards the returned state.  We embed exactly that call.

The C loop (after dividing both rates by their gcd) alternates:
while `d < 0` consume one input frame (shifting `prev_i := cur_i`,
`cur_i := frame`, `d := d + outrate`); while `d ≥ 0` emit the
interpolated sample `(prev_i*d + cur_i*(outrate-d)) / outrate` (the
exact double quotient rounded toward minus infinity, validated against
`audioop.ratecv` on positive and negative samples at several rate
pairs) and set `d := d - inrate`.  The reduced `inrate` is positive, so we
carry it as `inr1 + 1` to make termination structural. -/

/-- The `ratecv` production loop of `audioop.c`, for one channel, with
the default filter weights.  `inr1 + 1` is the gcd-reduced input rate,
`outr` the gcd-reduced output rate. -/
def ratecvCore (inr1 outr : Nat) (input : List Int) (d prev cur : Int) : List Int :=
  if d < 0 then
    match input with
    | [] => []
    | f :: rest => ratecvCore inr1 outr rest (d + outr) cur f
  else
    (prev * d + cur * ((outr : Int) - d)).fdiv outr ::
      ratecvCore inr1 outr input (d - (inr1 + 1)) prev cur
termination_by (input.length, (d + 1).toNat)
decreasing_by
  · simp_wf
    omega
  · right
    omega

/-- `audioop.ratecv(fragment, width, 1, inrate, outrate, None)` with the
returned state discarded, as called at `demo_live.py:137`.  Performs the
same parameter checks as the C code, reduces the rates by their gcd, and
runs the production loop from the initial state `d = -outrate`,
`prev_i = cur_i = 0`. -/
def ratecvMono (width inrate outrate : Nat) (frames : List Nat) :
    Except AudioopError (List Nat) :=
  if ¬ widthOk width then .error .badWidth
  else if frames.length % width ≠ 0 then .error .notWholeFrames
  else if inrate = 0 ∨ outrate = 0 then .error .badRate
  else
    let g := Nat.gcd inrate outrate
    let inr := inrate / g
    let outr := outrate / g
    .ok (encodeSigned width
      (ratecvCore (inr - 1) outr (decodeSigned width frames) (-(outr : Int)) 0 0))

/-! ## `audioop.lin2ulaw` / `audioop.ulaw2lin`

Translated from the SUN `g711.c` code embedded in `audioop.c`
(`st_14linear2ulaw`, `_st_ulaw2linear16`). -/

/-- `seg_uend` segment-end table from `audioop.c`. -/
def seg_uend : List Int := [0x3F, 0x7F, 0xFF, 0x1FF, 0x3FF, 0x7FF, 0xFFF, 0x1FFF]

/-- `search(val, table, size)`: index of the first table entry `≥ val`,
or the table length if none is. -/
def segSearch (val : Int) : List Int → Nat
  | [] => 0
  | t :: rest => if val ≤ t then 0 else 1 + segSearch val rest

/-- `st_14linear2ulaw` from `audioop.c` (`BIAS = 0x84`, `CLIP = 8159`):
sign/magnitude split, clip, bias, segment search, and complement. -/
def st_14linear2ulaw (pcm : Int) : Nat :=
  let mag := if pcm < 0 then -pcm else pcm
  let mask : Nat := if pcm < 0 then 0x7F else 0xFF
  let clipped := if mag > 8159 then 8159 else mag
  let biased := (clipped + 0x21).toNat
  let seg := segSearch (clipped + 0x21) seg_uend
  if seg ≥ 8 then Nat.xor 0x7F mask
  else Nat.xor ((seg <<< 4) ||| ((biased >>> (seg + 1)) &&& 0xF)) mask

/-- `GETSAMPLE32(width, ...)`: a raw width-`width` sample promoted to the
32-bit range. -/
def getsample32 (width : Nat) (v : Int) : Int :=
  v * 2 ^ (8 * (4 - width))

/-- `audioop.lin2ulaw(fragment, width)`: one mu-law byte per input
sample, `st_14linear2ulaw(GETSAMPLE32(...) >> 18)` (an arithmetic shift,
i.e. floor division by `2^18`). -/
def lin2ulaw (width : Nat) (frames : List Nat) : Except AudioopError (List Nat) :=
  if ¬ widthOk width then .error .badWidth
  else if frames.length % width ≠ 0 then .error .notWholeFrames
  else .ok ((decodeSigned width frames).map
    fun v => st_14linear2ulaw ((getsample32 width v).fdiv (2 ^ 18)))

/-- `_st_ulaw2linear16`: the 256-entry mu-law decode table of
`audioop.c`, given by the standard G.711 expansion formula that
generates it. -/
def st_ulaw2linear16 (u : Nat) : Int :=
  let uc := 0xFF - u % 256
  let t := (((uc &&& 0xF) <<< 3) + 0x84) <<< ((uc &&& 0x70) >>> 4)
  if uc &&& 0x80 ≠ 0 then (0x84 : Int) - t else (t : Int) - 0x84

/-- `audioop.ulaw2lin(fragment, width)`: each mu-law byte expands to one
linear sample of `width` bytes
(`SETSAMPLE32(width, ..., st_ulaw2linear16(byte) << 16)`). -/
def ulaw2lin (width : Nat) (frames : List Nat) : Except AudioopError (List Nat) :=
  if ¬ widthOk width then .error .badWidth
  else .ok (encodeSigned width
    (frames.map fun b => (st_ulaw2linear16 b * 2 ^ 16).fdiv (2 ^ (8 * (4 - width)))))

/-! ## WAV input and the transcoding stages of `local_asr_transcribe`

`wave.open` yields the raw frame bytes, the sample width, the frame rate
and the channel count (`demo_live.py:125-129`). -/

structure WavFile where
  nchannels : Nat
  sampwidth : Nat
  framerate : Nat
  frames    : List Nat
deriving DecidableEq, Repr

/-- `demo_live.py:131-133`: `if n_channels == 2: frames =
audioop.tomono(frames, width, 0.5, 0.5)`. -/
def monoStage (w : WavFile) : Except AudioopError (List Nat) :=
  if w.nchannels == 2 then tomono w.sampwidth w.frames else .ok w.frames

/-- `demo_live.py:135-137`: `if rate != 8000: frames, _ =
audioop.ratecv(frames, width, 1, rate, 8000, None)`. -/
def resampleStage (width rate : Nat) (frames : List Nat) : Except AudioopError (List Nat) :=
  if rate ≠ 8000 then ratecvMono width rate 8000 frames else .ok frames

/-- The transcoding block of `local_asr_transcribe`
(`demo_live.py:131-140`): mono mix, resample, then
`audioop.lin2ulaw(frames, width)`. -/
def transcode (w : WavFile) : Except AudioopError (List Nat) := do
  let f1 ← monoStage w
  let f2 ← resampleStage w.sampwidth w.framerate f1
  lin2ulaw w.sampwidth f2

/-! ## Parsed JSON values

The script inspects parsed JSON only through: is the value a dict; does
the dict have a given key; is the keyed value a string (so that
`.strip()` succeeds).  We model parsed JSON retaining exactly those
distinctions: `JVal.other` stands for any non-string JSON value and
`Json.nonObj` for any non-dict JSON document. -/

inductive JVal where
  | str (s : String)
  | other
deriving DecidableEq, Repr

/-- A parsed JSON object: its field list (keys unique, as in a dict). -/
abbrev JObj := List (String × JVal)

inductive Json where
  | obj (fields : JObj)
  | nonObj
deriving DecidableEq, Repr

/-- Dict lookup: `fields[key]` / `key in fields`. -/
def jget (fields : JObj) (key : String) : Option JVal :=
  match fields with
  | [] => none
  | (k, v) :: rest => if k = key then some v else jget rest key

/-! ## The ASR transport adapter `local_asr_transcribe`

Every suspension point of the coroutine (connection open, WAV file read,
the two sends, the receive) can raise; the `AsrEnv` record supplies each
outcome.  The whole body runs under `try`/`except` which turns any
exception into the return value `""` (`demo_live.py:153-155`). -/

structure AsrEnv where
  /-- `websockets.connect(LOCAL_ASR_URL, open_timeout=5)`. -/
  connect : Except Unit Unit
  /-- `wave.open` + frame/parameter extraction. -/
  wav : Except Unit WavFile
  /-- `await ws.send(mulaw_bytes)`. -/
  sendAudioOutcome : Except Unit Unit
  /-- `await ws.send(json.dumps({"action": "transcribe"}))`. -/
  sendCtlOutcome : Except Unit Unit
  /-- `await ws.recv()` followed by `json.loads`; an error covers both a
  failed receive and an unparsable response. -/
  recv : Except Unit Json

/-- The observable transport actions of one `local_asr_transcribe` call. -/
inductive AsrAction where
  | sendAudio (bytes : List Nat)
  | sendControl (msg : Json)
  | recvMsg
deriving DecidableEq, Repr

/-- The control message `{"action": "transcribe"}` of `demo_live.py:146`. -/
def controlMsg : Json := .obj [("action", .str "transcribe")]

/-- `data.get("text", "").strip()` (`demo_live.py:151`): the trimmed
`text` field when it is a string; `""` when the field is absent; and the
`AttributeError` of calling `.strip()` on a non-string (or `.get` on a
non-dict) is caught by the enclosing `except`, which returns `""`. -/
def extractText (data : Json) : String :=
  match data with
  | .obj fields =>
      match jget fields "text" with
      | some (.str s) => s.trim
      | some .other => ""
      | none => ""
  | .nonObj => ""

/-- `local_asr_transcribe` (`demo_live.py:117-155`): returns the
transcript together with the list of transport actions performed. -/
def local_asr_transcribe (env : AsrEnv) : String × List AsrAction :=
  match env.connect with
  | .error _ => ("", [])
  | .ok _ =>
    match env.wav with
    | .error _ => ("", [])
    | .ok w =>
      match transcode w with
      | .error _ => ("", [])
      | .ok mulawBytes =>
        match env.sendAudioOutcome with
        | .error _ => ("", [])
        | .ok _ =>
          match env.sendCtlOutcome with
          | .error _ => ("", [.sendAudio mulawBytes])
          | .ok _ =>
            match env.recv with
            | .error _ => ("", [.sendAudio mulawBytes, .sendControl controlMsg])
            | .ok data =>
                (extractText data,
                 [.sendAudio mulawBytes, .sendControl controlMsg, .recvMsg])

/-! ## The TTS streaming adapter `neutts_synthesize` -/

/-- Behaviour of `tts_service.synthesize(text)`: the engine either
yields a finite list of mu-law byte chunks and completes, or raises at
some point during production (the partial accumulation is then discarded
by the `except` handler). -/
inductive TtsOutcome where
  | chunks (cs : List (List Nat))
  | raises
deriving Repr

/-- `neutts_synthesize` (`demo_live.py:157-177`): accumulate all chunks
in arrival order, return `b""` if nothing accumulated, otherwise
`audioop.ulaw2lin(bytes(ulaw_data), 2)`; any exception yields `b""`. -/
def neutts_synthesize (o : TtsOutcome) : List Nat :=
  match o with
  | .raises => []
  | .chunks cs =>
      if cs.flatten.isEmpty then []
      else
        match ulaw2lin 2 cs.flatten with
        | .ok pcm => pcm
        | .error _ => []

/-! ## The conversation driver (`run_demo` main loop)

`run_demo`'s pre-flight health checks and terminal rendering are the
excluded presentation layer; the embedded driver is the conversation
loop of `demo_live.py:292-391`.  Each step's interactions with the
outside world (file existence, the ASR environment, the Rasa POST
outcome, the TTS engine behaviour per synthesized text) are supplied by
a `StepEnv`; the driver produces the ordered trace of its observable
actions. -/

/-- One entry of `CONVERSATION_STEPS`. -/
structure Step where
  file : String
  label : String
deriving DecidableEq, Repr

/-- The `CONVERSATION_STEPS` script of `demo_live.py:57-63`. -/
def CONVERSATION_STEPS : List Step :=
  [⟨"user_input_1.wav", "Transfer Request"⟩,
   ⟨"user_input_2.wav", "Account Selection"⟩,
   ⟨"user_input_3.wav", "Account Destination"⟩,
   ⟨"user_input_4.wav", "Amount"⟩,
   ⟨"user_input_5.wav", "Confirmation"⟩]

/-- Environment of one conversation step. -/
structure StepEnv where
  /-- `audio_path.exists()`. -/
  fileExists : Bool
  /-- Environment of this step's `local_asr_transcribe` call. -/
  asr : AsrEnv
  /-- Outcome of the Rasa POST: an error covers both a raised request
  exception and a non-200 status (each hits `continue`); success carries
  the parsed response array, a list of JSON objects per the REST webhook
  contract. -/
  rasa : Except Unit (List JObj)
  /-- Behaviour of the TTS engine for each synthesized text. -/
  tts : JVal → TtsOutcome

/-- Observable driver actions, in program order. -/
inductive DriverEvent where
  | playUser (file : String)
  | asrCall (file : String)
  | displayUser (transcript : String)
  | rasaCall (transcript : String)
  | displayAgent (text : JVal)
  | synthCall (text : JVal)
  | playAgent (text : JVal)
deriving DecidableEq, Repr

/-- The `for response in bot_responses` loop (`demo_live.py:356-389`):
a reply with a `text` field is displayed, synthesized, and — only when
the synthesized PCM is non-empty (`if pcm_audio:`) — played; a reply
without a `text` field contributes nothing. -/
def processReplies (e : StepEnv) : List JObj → List DriverEvent
  | [] => []
  | fields :: rest =>
      (match jget fields "text" with
       | none => []
       | some v =>
           [.displayAgent v, .synthCall v] ++
             (if neutts_synthesize (e.tts v) = [] then [] else [.playAgent v])) ++
        processReplies e rest

/-- One iteration of the `for step in CONVERSATION_STEPS` loop
(`demo_live.py:292-391`): skip if the audio file is missing; play the
user audio; transcribe; skip the rest on an empty transcript; display
the user bubble; POST to Rasa (skip the rest on failure or non-200);
process each bot reply. -/
def runStep (s : Step) (e : StepEnv) : List DriverEvent :=
  if e.fileExists then
    .playUser s.file :: .asrCall s.file ::
      (let transcript := (local_asr_transcribe e.asr).fst
       if transcript = "" then []
       else
         .displayUser transcript :: .rasaCall transcript ::
           (match e.rasa with
            | .error _ => []
            | .ok replies => processReplies e replies))
  else []

/-- The whole conversation loop over a list of steps with their
per-step environments. -/
def runSteps : List (Step × StepEnv) → List DriverEvent
  | [] => []
  | (s, e) :: rest => runStep s e ++ runSteps rest

/-- The `playAgent` payloads of a trace, in order. -/
def agentPlays (tr : List DriverEvent) : List JVal :=
  tr.filterMap fun ev =>
    match ev with
    | .playAgent v => some v
    | _ => none

/-- The `synthCall` payloads of a trace, in order. -/
def agentSynths (tr : List DriverEvent) : List JVal :=
  tr.filterMap fun ev =>
    match ev with
    | .synthCall v => some v
    | _ => none

/-- The `text` fields present in a Rasa reply list, in order. -/
def textsOf (replies : List JObj) : List JVal :=
  replies.filterMap fun fields => jget fields "text"

/-! ## Length lemmas for the width-2 codec layer -/

theorem decodeSigned2_length (bs : List Nat) : (decodeSigned2 bs).length = bs.length / 2 := by
  induction bs using decodeSigned2.induct with
  | case1 b0 b1 rest ih => simp [decodeSigned2, ih]; omega
  | case2 bs h => cases bs with
    | nil => simp [decodeSigned2]
    | cons b rest =>
        cases rest with
        | nil => simp [decodeSigned2]
        | cons b1 r => exact absurd rfl (h b b1 r)

theorem encodeSigned2_length (ss : List Int) : (encodeSigned2 ss).length = 2 * ss.length := by
  induction ss with
  | nil => simp [encodeSigned2]
  | cons s rest ih => simp [encodeSigned2, ih]; omega

theorem mixPairs_length (minv maxv : Int) (ss : List Int) :
    (mixPairs minv maxv ss).length = ss.length / 2 := by
  induction ss using mixPairs.induct minv maxv with
  | case1 l r rest ih => simp [mixPairs, ih]; omega
  | case2 ss h => cases ss with
    | nil => simp [mixPairs]
    | cons l rest =>
        cases rest with
        | nil => simp [mixPairs]
        | cons r t => exact absurd rfl (h l r t)

/-- `tomono` at width 2 on a whole number of stereo frames succeeds with
the mixed, re-encoded samples. -/
theorem tomono2_ok (frames : List Nat) (h : frames.length % 4 = 0) :
    tomono 2 frames =
      .ok (encodeSigned2 (mixPairs (minval 2) (maxval 2) (decodeSigned2 frames))) := by
  have h2 : frames.length % 2 = 0 := by omega
  have h4 : (frames.length / 2) % 2 = 0 := by omega
  unfold tomono
  simp [widthOk, h2, h4, decodeSigned, encodeSigned]

/-- `tomono` at width 2 on a whole number of stereo frames: half as many
bytes out as in. -/
theorem tomono2_length (frames : List Nat) (h : frames.length % 4 = 0) :
    ∃ out, tomono 2 frames = .ok out ∧ out.length = frames.length / 2 :=
  ⟨_, tomono2_ok frames h, by
    rw [encodeSigned2_length, mixPairs_length, decodeSigned2_length]; omega⟩

/-- `lin2ulaw` at width 2 on a whole number of samples succeeds with one
companded byte per sample. -/
theorem lin2ulaw2_ok (frames : List Nat) (h : frames.length % 2 = 0) :
    lin2ulaw 2 frames =
      .ok ((decodeSigned2 frames).map
        fun v => st_14linear2ulaw ((getsample32 2 v).fdiv (2 ^ 18))) := by
  unfold lin2ulaw
  simp [widthOk, h, decodeSigned]

/-- `lin2ulaw` at width 2 on a whole number of samples: one mu-law byte
per sample. -/
theorem lin2ulaw2_length (frames : List Nat) (h : frames.length % 2 = 0) :
    ∃ out, lin2ulaw 2 frames = .ok out ∧ out.length = frames.length / 2 :=
  ⟨_, lin2ulaw2_ok frames h, by rw [List.length_map, decodeSigned2_length]⟩

/-- `ulaw2lin` at width 2 never fails. -/
theorem ulaw2lin2_ok (frames : List Nat) :
    ulaw2lin 2 frames =
      .ok (encodeSigned2 (frames.map
        fun b => (st_ulaw2linear16 b * 2 ^ 16).fdiv (2 ^ (8 * (4 - 2))))) := by
  unfold ulaw2lin
  simp [widthOk, encodeSigned]

/-- `ulaw2lin` at width 2 yields two bytes per mu-law byte. -/
theorem ulaw2lin2_length (frames : List Nat) :
    ∃ out, ulaw2lin 2 frames = .ok out ∧ out.length = 2 * frames.length :=
  ⟨_, ulaw2lin2_ok frames, by rw [encodeSigned2_length, List.length_map]⟩

/-! ## Output length of `ratecv` at `inrate = 16000, outrate = 8000`

After gcd reduction the rates become `2` and `1`; the production loop
then emits `⌈n/2⌉` frames for `n` input frames.  The two reachable
loop re-entry states have `d = -1` (about to consume one frame) and
`d = -2` (about to consume two). -/

theorem ratecvCore_two_one_length (input : List Int) :
    (∀ p c, (ratecvCore 1 1 input (-1) p c).length = (input.length + 1) / 2) ∧
    (∀ p c, (ratecvCore 1 1 input (-2) p c).length = input.length / 2) := by
  induction input with
  | nil =>
      constructor <;> intro p c <;> (rw [ratecvCore.eq_def]; norm_num)
  | cons f rest ih =>
      constructor
      · intro p c
        rw [ratecvCore.eq_def]
        norm_num
        rw [ratecvCore.eq_def]
        norm_num
        rw [ih.2 c f]
        omega
      · intro p c
        rw [ratecvCore.eq_def]
        norm_num
        exact ih.1 c f

/-- `audioop.ratecv(frames, 2, 1, 16000, 8000, None)` on a whole number
of 16-bit samples succeeds. -/
theorem ratecvMono_16k_8k_ok (frames : List Nat) (h : frames.length % 2 = 0) :
    ratecvMono 2 16000 8000 frames =
      .ok (encodeSigned2 (ratecvCore 1 1 (decodeSigned2 frames) (-1) 0 0)) := by
  have hg : Nat.gcd 16000 8000 = 8000 := by norm_num
  unfold ratecvMono
  simp [widthOk, h, hg, decodeSigned, encodeSigned]

/-- `audioop.ratecv(frames, 2, 1, 16000, 8000, None)` on a whole number
of 16-bit samples: `⌈n/2⌉` output samples, hence `2⌈n/2⌉` bytes. -/
theorem ratecvMono_16k_8k_length (frames : List Nat) (h : frames.length % 2 = 0) :
    ∃ out, ratecvMono 2 16000 8000 frames = .ok out ∧
      out.length = 2 * ((frames.length / 2 + 1) / 2) :=
  ⟨_, ratecvMono_16k_8k_ok frames h, by
    rw [encodeSigned2_length, (ratecvCore_two_one_length (decodeSigned2 frames)).1,
      decodeSigned2_length]⟩

/-! ## Claim theorems -/

/-- C3: For every linear-PCM buffer whose sample rate is already
8000 Hz, the resampling step with target rate 8000 is the identity: the
sample bytes are returned unchanged (`demo_live.py:135-137` skips
`audioop.ratecv` entirely when `rate != 8000` is false). -/
theorem resampleStage_identity_at_8000 (width : Nat) (frames : List Nat) :
    resampleStage width 8000 frames = .ok frames := by
  unfold resampleStage
  simp

/-- A 3-channel, width-2, 8000 Hz WAV input: one frame of three
16-bit zero samples. -/
def threeChannelWav : WavFile :=
  { nchannels := 3, sampwidth := 2, framerate := 8000, frames := [0, 0, 0, 0, 0, 0] }

/-- C2 counterexample: the claim says transcoding fails with
`UnsupportedChannelCount` for every channel count other than 1 or 2, but
a 3-channel input transcodes successfully — the code only mixes when
`n_channels == 2` and otherwise leaves the frames untouched, so the
three zero samples compand to three `0xFF` mu-law bytes and no failure
occurs. -/
theorem transcode_three_channels_succeeds :
    threeChannelWav.nchannels = 3 ∧ transcode threeChannelWav = .ok [255, 255, 255] := by
  constructor
  · rfl
  · rfl

/-- C2 (amended): `local_asr_transcribe` applies mono mixing only when
the channel count is exactly 2; for any other channel count (including
more than 2) the frames pass to the later stages unchanged, and no
channel-count failure is raised. -/
theorem monoStage_skips_non_stereo (w : WavFile) (h : w.nchannels ≠ 2) :
    monoStage w = .ok w.frames ∧
    transcode w = (resampleStage w.sampwidth w.framerate w.frames >>= lin2ulaw w.sampwidth) := by
  have hm : monoStage w = .ok w.frames := by
    unfold monoStage
    simp [h]
  refine ⟨hm, ?_⟩
  unfold transcode
  rw [hm]
  rfl

/-- C2 witness: the amended statement at the concrete 3-channel input. -/
theorem monoStage_skips_non_stereo_witness :
    monoStage threeChannelWav = .ok threeChannelWav.frames ∧
    transcode threeChannelWav =
      (resampleStage threeChannelWav.sampwidth threeChannelWav.framerate threeChannelWav.frames
        >>= lin2ulaw threeChannelWav.sampwidth) :=
  monoStage_skips_non_stereo threeChannelWav (by decide)

/-- C5: the synthesize operation returns a zero-length buffer, not an
exception, whenever the engine yields no chunk data or raises during
chunk production or conversion (`demo_live.py:157-177`). -/
theorem neutts_synthesize_empty_on_failure :
    (∀ cs : List (List Nat), cs.flatten = [] → neutts_synthesize (.chunks cs) = []) ∧
    neutts_synthesize .raises = [] := by
  constructor
  · intro cs h
    unfold neutts_synthesize
    simp [h]
  · rfl

/-- C5 witness: an engine that completes without yielding any chunk, and
an engine that raises, both produce the empty buffer. -/
theorem neutts_synthesize_empty_on_failure_witness :
    neutts_synthesize (.chunks []) = [] ∧ neutts_synthesize .raises = [] :=
  ⟨neutts_synthesize_empty_on_failure.1 [] rfl, neutts_synthesize_empty_on_failure.2⟩

/-- C6: the synthesize operation concatenates all engine chunks in
arrival order into one contiguous mu-law buffer and expands it at 2
bytes per sample; three chunks of 160 bytes each accumulate to 480
mu-law bytes and yield a 960-byte linear-PCM buffer. -/
theorem neutts_synthesize_concat_expand :
    (∀ cs : List (List Nat), (neutts_synthesize (.chunks cs)).length = 2 * cs.flatten.length) ∧
    (∀ c1 c2 c3 : List Nat, c1.length = 160 → c2.length = 160 → c3.length = 160 →
      ([c1, c2, c3] : List (List Nat)).flatten = c1 ++ c2 ++ c3 ∧
      (c1 ++ c2 ++ c3).length = 480 ∧
      (neutts_synthesize (.chunks [c1, c2, c3])).length = 960) := by
  have hlen : ∀ cs : List (List Nat),
      (neutts_synthesize (.chunks cs)).length = 2 * cs.flatten.length := by
    intro cs
    simp only [neutts_synthesize]
    by_cases h : cs.flatten.isEmpty
    · rw [if_pos h]
      rw [List.isEmpty_iff] at h
      simp [h]
    · rw [if_neg h, ulaw2lin2_ok]
      simp [encodeSigned2_length, Function.comp_def]
  refine ⟨hlen, fun c1 c2 c3 h1 h2 h3 => ⟨?_, ?_, ?_⟩⟩
  · simp
  · simp [h1, h2, h3]
  · rw [hlen]
    simp [h1, h2, h3]

/-- C6 witness: three concrete 160-byte chunks. -/
theorem neutts_synthesize_concat_expand_witness :
    (List.replicate 160 0 ++ List.replicate 160 7 ++ List.replicate 160 255 :
      List Nat).length = 480 ∧
    (neutts_synthesize (.chunks
      [List.replicate 160 0, List.replicate 160 7, List.replicate 160 255])).length = 960 := by
  have h := (neutts_synthesize_concat_expand.2
    (List.replicate 160 0) (List.replicate 160 7) (List.replicate 160 255)
    (by simp) (by simp) (by simp))
  exact ⟨h.2.1, h.2.2⟩

/-- C1: on a reachable service, the transcribe operation transcodes the
WAV through mono-mix → resample-to-8000 → mu-law in that order, sends
the mu-law bytes as one message followed by the control message
`{"action": "transcribe"}`, awaits exactly one response, and returns the
trimmed `text` field, or `""` when that field is absent. -/
theorem local_asr_transcribe_protocol (env : AsrEnv) (w : WavFile) (mb : List Nat)
    (fields : JObj)
    (hc : env.connect = .ok ())
    (hw : env.wav = .ok w)
    (hs1 : env.sendAudioOutcome = .ok ())
    (hs2 : env.sendCtlOutcome = .ok ())
    (ht : (monoStage w >>= fun f1 =>
            resampleStage w.sampwidth w.framerate f1 >>= lin2ulaw w.sampwidth) = .ok mb)
    (hr : env.recv = .ok (.obj fields)) :
    (local_asr_transcribe env).snd = [.sendAudio mb, .sendControl controlMsg, .recvMsg] ∧
    (∀ s, jget fields "text" = some (.str s) → (local_asr_transcribe env).fst = s.trim) ∧
    (jget fields "text" = none → (local_asr_transcribe env).fst = "") := by
  have ht' : transcode w = .ok mb := ht
  refine ⟨?_, ?_, ?_⟩
  · simp [local_asr_transcribe, hc, hw, hs1, hs2, hr, ht']
  · intro s hs
    simp [local_asr_transcribe, hc, hw, hs1, hs2, hr, ht', extractText, hs]
  · intro hnone
    simp [local_asr_transcribe, hc, hw, hs1, hs2, hr, ht', extractText, hnone]

/-- A mono 8 kHz 16-bit WAV carrying a single zero sample. -/
def wavMono8k : WavFile :=
  { nchannels := 1, sampwidth := 2, framerate := 8000, frames := [0, 0] }

/-- An environment in which every transport step succeeds and the
service answers `{"text": " hi "}`. -/
def asrEnvHappy : AsrEnv :=
  { connect := .ok (), wav := .ok wavMono8k, sendAudioOutcome := .ok (),
    sendCtlOutcome := .ok (), recv := .ok (.obj [("text", .str " hi ")]) }

/-- C1 witness: the protocol theorem at a concrete happy-path
environment. -/
theorem local_asr_transcribe_protocol_witness :
    (local_asr_transcribe asrEnvHappy).snd =
      [.sendAudio [255], .sendControl controlMsg, .recvMsg] ∧
    (local_asr_transcribe asrEnvHappy).fst = " hi ".trim := by
  have h := local_asr_transcribe_protocol asrEnvHappy wavMono8k [255]
    [("text", .str " hi ")] rfl rfl rfl rfl rfl rfl
  exact ⟨h.1, h.2.1 " hi " rfl⟩

/-- Some step of the ASR call (connection open, file read, transcoding,
either send, or the receive/parse) fails with an exception. -/
def asrStepFails (env : AsrEnv) : Prop :=
  env.connect = .error () ∨
  env.wav = .error () ∨
  (∃ w, env.wav = .ok w ∧ ∃ e, transcode w = .error e) ∨
  env.sendAudioOutcome = .error () ∨
  env.sendCtlOutcome = .error () ∨
  env.recv = .error ()

/-- C4: the transcribe operation never raises — any exception during
connection open, file read, transcoding, send, or receive yields the
return value `""` — and the driver treats an empty transcript as "skip
this step": the step contributes only its play and ASR-call actions and
the run continues with the remaining steps. -/
theorem transcribe_failure_policy :
    (∀ env : AsrEnv, asrStepFails env → (local_asr_transcribe env).fst = "") ∧
    (∀ (s : Step) (e : StepEnv) (rest : List (Step × StepEnv)),
      e.fileExists = true → (local_asr_transcribe e.asr).fst = "" →
      runSteps ((s, e) :: rest) = .playUser s.file :: .asrCall s.file :: runSteps rest) := by
  constructor
  · intro env h
    rcases env with ⟨c, wv, s1, s2, rv⟩
    cases c with
    | error u => rfl
    | ok u =>
      cases wv with
      | error u => rfl
      | ok w =>
        cases htr : transcode w with
        | error e => simp [local_asr_transcribe, htr]
        | ok mb =>
          cases s1 with
          | error u => simp [local_asr_transcribe, htr]
          | ok u =>
            cases s2 with
            | error u => simp [local_asr_transcribe, htr]
            | ok u =>
              cases rv with
              | error u => simp [local_asr_transcribe, htr]
              | ok data =>
                  rcases h with h | h | ⟨w', hw', e', he'⟩ | h | h | h <;> simp_all
  · intro s e rest hf ht
    simp [runSteps, runStep, hf, ht]

/-- An environment in which the connection open itself fails. -/
def asrEnvDown : AsrEnv :=
  { connect := .error (), wav := .error (), sendAudioOutcome := .error (),
    sendCtlOutcome := .error (), recv := .error () }

/-- A step environment whose audio file exists but whose ASR service is
unreachable. -/
def stepEnvAsrDown : StepEnv :=
  { fileExists := true, asr := asrEnvDown, rasa := .error (), tts := fun _ => .raises }

/-- C4 witness: with the service unreachable the transcript is `""` and
the first conversation step is skipped after its play and ASR actions,
the run continuing with the rest. -/
theorem transcribe_failure_policy_witness :
    (local_asr_transcribe asrEnvDown).fst = "" ∧
    runSteps [(⟨"user_input_1.wav", "Transfer Request"⟩, stepEnvAsrDown)] =
      [.playUser "user_input_1.wav", .asrCall "user_input_1.wav"] := by
  have h1 := transcribe_failure_policy.1 asrEnvDown (Or.inl rfl)
  have h2 := transcribe_failure_policy.2 ⟨"user_input_1.wav", "Transfer Request"⟩
    stepEnvAsrDown [] rfl h1
  exact ⟨h1, by rw [h2]; rfl⟩

/-- C9: a dialogue-service reply object without a `text` field produces
no synthesis, no playback, and no display update, and the driver
proceeds to the remaining replies unchanged
(`demo_live.py:356-357`: `if 'text' in response`). -/
theorem reply_without_text_skipped (e : StepEnv) (fields : JObj) (rest : List JObj)
    (h : jget fields "text" = none) :
    processReplies e (fields :: rest) = processReplies e rest := by
  simp [processReplies, h]

/-- A step environment with a working two-reply Rasa response and a TTS
engine that yields one one-byte chunk for every text. -/
def stepEnvTwoReplies : StepEnv :=
  { fileExists := true, asr := asrEnvHappy,
    rasa := .ok [[("text", .str "Which account?")], [("text", .str "Checking or savings?")]],
    tts := fun _ => .chunks [[0]] }

/-- C9 witness: a reply carrying only an `image` field contributes
nothing to the step's trace. -/
theorem reply_without_text_skipped_witness :
    processReplies stepEnvTwoReplies
        [[("image", .other)], [("text", .str "Checking or savings?")]] =
      processReplies stepEnvTwoReplies [[("text", .str "Checking or savings?")]] :=
  reply_without_text_skipped stepEnvTwoReplies [("image", .other)]
    [[("text", .str "Checking or savings?")]] rfl

/-- C10: a conversation step whose input audio file does not exist is
skipped before any service is contacted — it contributes no trace
actions at all (no playback, no transcription, no dialogue request) —
and the run continues with the remaining steps
(`demo_live.py:295-297`). -/
theorem missing_file_skips_step (s : Step) (e : StepEnv) (rest : List (Step × StepEnv))
    (h : e.fileExists = false) :
    runSteps ((s, e) :: rest) = runSteps rest := by
  simp [runSteps, runStep, h]

/-- A step environment whose audio file is missing. -/
def stepEnvNoFile : StepEnv :=
  { fileExists := false, asr := asrEnvHappy, rasa := .error (), tts := fun _ => .raises }

/-- C10 witness: a missing first file leaves exactly the second step's
trace. -/
theorem missing_file_skips_step_witness :
    runSteps [(⟨"user_input_1.wav", "Transfer Request"⟩, stepEnvNoFile),
              (⟨"user_input_2.wav", "Account Selection"⟩, stepEnvAsrDown)] =
      runSteps [(⟨"user_input_2.wav", "Account Selection"⟩, stepEnvAsrDown)] :=
  missing_file_skips_step ⟨"user_input_1.wav", "Transfer Request"⟩ stepEnvNoFile
    [(⟨"user_input_2.wav", "Account Selection"⟩, stepEnvAsrDown)] rfl

/-- C8: within one step, every reply containing text is synthesized in
the order received, and (when each synthesis yields audio, since
`if pcm_audio:` skips playback of an empty buffer) every such reply is
played, in that same order. -/
theorem textsOf_cons_none (fields : JObj) (rest : List JObj)
    (h : jget fields "text" = none) : textsOf (fields :: rest) = textsOf rest := by
  simp [textsOf, h]

theorem textsOf_cons_some (fields : JObj) (rest : List JObj) (v : JVal)
    (h : jget fields "text" = some v) : textsOf (fields :: rest) = v :: textsOf rest := by
  simp [textsOf, h]

theorem replies_synthesized_played_in_order (e : StepEnv) (replies : List JObj)
    (hs : ∀ v ∈ textsOf replies, neutts_synthesize (e.tts v) ≠ []) :
    agentSynths (processReplies e replies) = textsOf replies ∧
    agentPlays (processReplies e replies) = textsOf replies := by
  induction replies with
  | nil => exact ⟨rfl, rfl⟩
  | cons fields rest ih =>
      cases hj : jget fields "text" with
      | none =>
          rw [textsOf_cons_none fields rest hj] at hs ⊢
          simpa [processReplies, hj] using ih hs
      | some v =>
          rw [textsOf_cons_some fields rest v hj] at hs ⊢
          have hv := hs v (List.mem_cons_self v _)
          have hrest := ih fun u hu => hs u (List.mem_cons_of_mem v hu)
          have hpr : processReplies e (fields :: rest) =
              .displayAgent v :: .synthCall v :: .playAgent v :: processReplies e rest := by
            simp [processReplies, hj, hv]
          rw [hpr]
          constructor
          · have h1 := hrest.1
            simp only [agentSynths] at h1 ⊢
            simp [List.filterMap_cons, h1]
          · have h2 := hrest.2
            simp only [agentPlays] at h2 ⊢
            simp [List.filterMap_cons, h2]

/-- C8 witness: the dialogue-server scenario
`[{"text":"Which account?"}, {"text":"Checking or savings?"}]` yields
exactly two synthesis calls and two playback invocations, in that
order. -/
theorem replies_synthesized_played_in_order_witness :
    agentSynths (processReplies stepEnvTwoReplies
        [[("text", .str "Which account?")], [("text", .str "Checking or savings?")]]) =
      [.str "Which account?", .str "Checking or savings?"] ∧
    agentPlays (processReplies stepEnvTwoReplies
        [[("text", .str "Which account?")], [("text", .str "Checking or savings?")]]) =
      [.str "Which account?", .str "Checking or savings?"] := by
  have h := replies_synthesized_played_in_order stepEnvTwoReplies
    [[("text", .str "Which account?")], [("text", .str "Checking or savings?")]]
    (fun v _ => by
      have hv : stepEnvTwoReplies.tts v = .chunks [[0]] := rfl
      rw [hv]
      decide)
  exact ⟨h.1, h.2⟩

/-- `⌈n/2⌉` over the rationals is `(n+1)/2` in natural division. -/
theorem ceil_nat_div_two (n : Nat) : ⌈(n : ℚ) / 2⌉ = (((n + 1) / 2 : ℕ) : ℤ) := by
  rcases Nat.even_or_odd n with ⟨k, hk⟩ | ⟨k, hk⟩
  · subst hk
    have h1 : ((k + k : ℕ) : ℚ) / 2 = (k : ℚ) := by push_cast; ring
    rw [h1, Int.ceil_natCast]
    have : (k + k + 1) / 2 = k := by omega
    rw [this]
  · subst hk
    have h2 : (2 * k + 1 + 1) / 2 = k + 1 := by omega
    rw [h2]
    rw [Int.ceil_eq_iff]
    refine ⟨?_, ?_⟩ <;> push_cast <;> linarith

/-- C7: transcoding a 16 kHz stereo 16-bit WAV with `n` frames through
mono-mix → resample(8000) → mu-law succeeds and produces one byte per
output sample, `⌈duration_seconds * 8000⌉ = ⌈(n / 16000) * 8000⌉` bytes
in total. -/
theorem transcode_16k_stereo_length (w : WavFile) (n : Nat)
    (hch : w.nchannels = 2) (hsw : w.sampwidth = 2) (hfr : w.framerate = 16000)
    (hlen : w.frames.length = 4 * n) :
    ((transcode w).toOption.map fun out => (out.length : ℤ)) =
      some ⌈((n : ℚ) / 16000) * 8000⌉ := by
  obtain ⟨o1, ho1, hl1⟩ := tomono2_length w.frames (by omega)
  have hm : monoStage w = .ok o1 := by
    unfold monoStage
    rw [hch, hsw]
    simpa using ho1
  obtain ⟨o2, ho2, hl2⟩ := ratecvMono_16k_8k_length o1 (by omega)
  have hr : resampleStage w.sampwidth w.framerate o1 = .ok o2 := by
    unfold resampleStage
    rw [hsw, hfr]
    simpa using ho2
  obtain ⟨o3, ho3, hl3⟩ := lin2ulaw2_length o2 (by omega)
  have htr : transcode w = .ok o3 := by
    unfold transcode
    rw [hm]
    show (resampleStage w.sampwidth w.framerate o1 >>= lin2ulaw w.sampwidth) = .ok o3
    rw [hr]
    show lin2ulaw w.sampwidth o2 = .ok o3
    rw [hsw]
    exact ho3
  rw [htr]
  have hfinal : o3.length = (n + 1) / 2 := by omega
  have hq : ((n : ℚ) / 16000) * 8000 = (n : ℚ) / 2 := by ring
  rw [hq, ceil_nat_div_two]
  show some ((o3.length : ℤ)) = some (((n + 1) / 2 : ℕ) : ℤ)
  rw [hfinal]

/-- A one-frame (four-byte) stereo 16 kHz WAV. -/
def wavStereo16k : WavFile :=
  { nchannels := 2, sampwidth := 2, framerate := 16000, frames := [1, 2, 3, 4] }

/-- C7 witness: the length theorem at a concrete one-frame stereo
16 kHz input. -/
theorem transcode_16k_stereo_length_witness :
    ((transcode wavStereo16k).toOption.map fun out => (out.length : ℤ)) =
      some ⌈((1 : ℚ) / 16000) * 8000⌉ := by
  have h := transcode_16k_stereo_length wavStereo16k 1 rfl rfl rfl rfl
  simpa using h

end SovereignVoice
